import Mathlib

/-!
Shallow embedding of the Relix changelog generator's range-resolution,
overlap-detection and persistence core
(src/app/api/github/tags/route.ts and the releases route handlers),
with theorems checking the specification's claims against it.

Modelling conventions:
* GitHub (the commit-history provider) is a `Provider` record of pure
  functions standing for the HTTP endpoints the code calls; `none`
  models a 404 response.
* Commit dates are ISO-8601 timestamp strings compared lexicographically
  (which coincides with chronological order for ISO-8601).
* The Supabase `release_slices` table is a `List ReleaseSlice`; an insert
  appends, a select filters, `order(published_at desc)` sorts.
* JavaScript falsiness of an optional string field (`undefined` or `""`)
  is `falsy`.
* Fallible TypeScript code (`throw`) becomes `Except ApiError`.
-/

namespace Relix

/-- A commit as returned by the provider (`CommitRef` in the spec). -/
structure Commit where
  sha : String
  date : String
  message : String := ""
  author : String := ""
deriving Repr, DecidableEq

/-- The `object` field of a GitHub tag-ref response: its `type`
(`"commit"` for lightweight tags, `"tag"` for annotated ones) and `sha`. -/
structure RefObject where
  typ : String
  sha : String
deriving Repr, DecidableEq

/-- The commit-history provider: pure functions standing for the GitHub
endpoints used by the route. `none` models a 404 response.
* `refs repo tag` — `GET /repos/{repo}/git/refs/tags/{tag}`
* `tagObjects repo sha` — `GET /repos/{repo}/git/tags/{sha}`, returning
  the dereferenced `object.sha` of the annotated tag object
* `branchCommits repo branch` — the full branch history, newest first,
  that `GET /repos/{repo}/commits?sha={branch}` pages over
* `compare repo base head` — `GET /repos/{repo}/compare/{base}...{head}`,
  returning the commit list of the comparison. -/
structure Provider where
  refs : String → String → Option RefObject
  tagObjects : String → String → Option String
  branchCommits : String → String → List Commit
  compare : String → String → String → Option (List Commit)

/-- The error taxonomy the route surfaces (spec §7), tagged with the
thrown message. -/
inductive ApiError where
  | validation (msg : String)
  | notFound (msg : String)
  | upstream (msg : String)
  | overlapConflict (msg : String)
  | storage (msg : String)
deriving Repr, DecidableEq

/-- The three input modes of the generate schema. -/
inductive Mode where
  | date
  | sha
  | tag
deriving Repr, DecidableEq

/-- The optional range fields of a request (`params.start/end/base/head`).
`end` is a Lean keyword, hence `end_`. -/
structure RangeParams where
  start : Option String := none
  end_ : Option String := none
  base : Option String := none
  head : Option String := none
deriving Repr, DecidableEq

/-- JavaScript falsiness of an optional string field: `undefined` or `""`. -/
def falsy : Option String → Bool
  | none => true
  | some s => s == ""

/-- `resolveTagToSha` (route.ts 260-301): look the tag ref up; a missing
ref is the 404 → `Tag not found` branch; an annotated tag
(`object.type === "tag"`) is dereferenced through the tag object to the
underlying commit SHA; a lightweight tag's `object.sha` is returned
directly. -/
def resolveTagToSha (p : Provider) (repo tag : String) : Except ApiError String :=
  match p.refs repo tag with
  | none => .error (.notFound ("Tag '" ++ tag ++ "' not found"))
  | some tagData =>
    if tagData.typ == "tag" then
      match p.tagObjects repo tagData.sha with
      | none => .error (.upstream "Failed to resolve annotated tag")
      | some commitSha => .ok commitSha
    else
      .ok tagData.sha

/-- Last element of `first :: rest` (the `commits[commits.length - 1]`
access). -/
def lastOf (first : Commit) (rest : List Commit) : Commit :=
  rest.getLastD first

/-- Strict character order by code point. -/
def charLt (a b : Char) : Bool := a.toNat < b.toNat

/-- Lexicographic order on character lists. -/
def lexLe : List Char → List Char → Bool
  | [], _ => true
  | _ :: _, [] => false
  | a :: as, b :: bs =>
    if charLt a b then true
    else if charLt b a then false
    else lexLe as bs

/-- The chronological order of ISO-8601 timestamp strings, which for
ISO-8601 coincides with lexicographic string comparison — this is the
order GitHub's `since`/`until` filters apply. -/
def dateLe (a b : String) : Bool := lexLe a.data b.data

/-- `findCommitShaByDate` (route.ts 304-339): list the branch commits
with `since=date` (start edge) or `until=date` (end edge) and
`per_page=100` — the provider filter keeps the commits at-or-after
(resp. at-or-before) `date`, and the single fetched page is the newest
100 of them. Empty page → `No commits found ...`; otherwise the start
edge takes the oldest commit of the page (last entry) and the end edge
the newest (first entry). -/
def findCommitShaByDate (p : Provider) (repo branch date : String)
    (isStart : Bool) : Except ApiError String :=
  let history := p.branchCommits repo branch
  let filtered :=
    if isStart then history.filter (fun c => dateLe date c.date)
    else history.filter (fun c => dateLe c.date date)
  let commits := filtered.take 100
  match commits with
  | [] =>
    .error (.notFound ("No commits found " ++
      (if isStart then "since " else "until ") ++ date))
  | first :: rest =>
    .ok (if isStart then (lastOf first rest).sha else first.sha)

/-- `convertToShaRange` (route.ts 342-388): normalise the three input
modes to a `(baseSha, headSha)` pair. Each mode first checks its own
required fields with JavaScript falsiness (`!params.start || ...`);
tag mode resolves `base` always and `head` only when it is not the
literal `"HEAD"`; sha mode passes both strings through. -/
def convertToShaRange (p : Provider) (repo branch : String) (mode : Mode)
    (params : RangeParams) : Except ApiError (String × String) :=
  match mode with
  | .date =>
    if falsy params.start || falsy params.end_ then
      .error (.validation "Start and end dates are required for date mode")
    else
      match findCommitShaByDate p repo branch (params.start.getD "") true with
      | .error e => .error e
      | .ok baseSha =>
        match findCommitShaByDate p repo branch (params.end_.getD "") false with
        | .error e => .error e
        | .ok headSha => .ok (baseSha, headSha)
  | .tag =>
    if falsy params.base || falsy params.head then
      .error (.validation "Base and head tags are required for tag mode")
    else
      match resolveTagToSha p repo (params.base.getD "") with
      | .error e => .error e
      | .ok baseSha =>
        if params.head.getD "" == "HEAD" then .ok (baseSha, "HEAD")
        else
          match resolveTagToSha p repo (params.head.getD "") with
          | .error e => .error e
          | .ok headSha => .ok (baseSha, headSha)
  | .sha =>
    if falsy params.base || falsy params.head then
      .error (.validation "Base and head SHAs are required for SHA mode")
    else
      .ok (params.base.getD "", params.head.getD "")

/-- `fetchCommits` (route.ts 390-429): convert the range to SHAs, then
compare `base...head`; a 404 of the compare call is the
`Repository not found or commit range not accessible` error. -/
def fetchCommits (p : Provider) (repo branch : String) (mode : Mode)
    (params : RangeParams) : Except ApiError (List Commit) :=
  match convertToShaRange p repo branch mode params with
  | .error e => .error e
  | .ok r =>
    match p.compare repo r.1 r.2 with
    | none => .error (.notFound "Repository not found or commit range not accessible")
    | some commits => .ok commits

/-- A row of the `release_slices` table (`ReleaseSlice` interface).
`published_at` is modelled as a `Nat` timestamp assigned at insert;
`commits_list` is optional because rows predating the column are read
back as `null`. -/
structure ReleaseSlice where
  id : String
  published_at : Nat
  repo : String
  branch : String
  mode : Mode
  start_date : Option String := none
  end_date : Option String := none
  base_sha : Option String := none
  head_sha : Option String := none
  base_tag : Option String := none
  head_tag : Option String := none
  markdown : String
  commits_list : Option (List String) := none
  owner_id : Option String := none
deriving Repr, DecidableEq

/-- `checkCommitsOverlap` (route.ts 432-472): select the rows of the
exact `(repo, branch)` scope, default a `null` `commits_list` to `[]`
(`existing.commits_list || []`), and test each row's list against the
candidate set, short-circuiting on the first hit. -/
def checkCommitsOverlap (db : List ReleaseSlice) (repo branch : String)
    (newCommitsList : List String) : Bool :=
  let data := db.filter (fun r => r.repo == repo && r.branch == branch)
  data.any (fun existing =>
    (existing.commits_list.getD []).any (fun sha => newCommitsList.contains sha))

/-- A parsed body of the generate endpoint (`generateSchema`): `branch`
already carries its zod default `"main"`. -/
structure GenerateRequest where
  repo : String
  branch : String := "main"
  mode : Mode
  start : Option String := none
  end_ : Option String := none
  base : Option String := none
  head : Option String := none
deriving Repr, DecidableEq

/-- The range fields of a generate request, as handed to
`convertToShaRange`. -/
def GenerateRequest.params (req : GenerateRequest) : RangeParams :=
  { start := req.start, end_ := req.end_, base := req.base, head := req.head }

/-- The success body of the generate endpoint. -/
structure GenerateResponse where
  markdown : String
  repo : String
  branch : String
  mode : Mode
  baseSha : String
  headSha : String
  commits_list : List String
deriving Repr, DecidableEq

/-- JavaScript template interpolation of a possibly-undefined string
(`${start}` prints `undefined` when the field is absent). -/
def optStr : Option String → String
  | none => "undefined"
  | some s => s

/-- The generate `POST` handler (route.ts 539-662), with the text
generator abstracted as the oracle `draft`: validate the body
(`generateSchema` rejects an empty `repo`), convert the range to SHAs,
fetch the compared commits, reject an empty range with the
mode-specific message that overwrites the generic default
(route.ts 557-573), reject an overlap with a persisted slice of the
same scope, and only then draft. -/
def generatePOST (p : Provider) (draft : List Commit → String)
    (db : List ReleaseSlice) (req : GenerateRequest) :
    Except ApiError GenerateResponse :=
  if req.repo == "" then
    .error (.validation "Invalid request data")
  else
    match convertToShaRange p req.repo req.branch req.mode req.params with
    | .error e => .error e
    | .ok r =>
      match fetchCommits p req.repo req.branch req.mode req.params with
      | .error e => .error e
      | .ok commits =>
        if commits.isEmpty then
          .error (.notFound
            (match req.mode with
             | .date => "No commits found between " ++ optStr req.start ++
                 " and " ++ optStr req.end_ ++ " on branch '" ++ req.branch ++ "'."
             | .sha => "No commits found between SHA '" ++ optStr req.base ++
                 "' and '" ++ optStr req.head ++ "' on branch '" ++ req.branch ++ "'."
             | .tag => "No commits found between tag '" ++ optStr req.base ++
                 "' and '" ++ optStr req.head ++ "' on branch '" ++ req.branch ++ "'."))
        else
          let commitsList := commits.map (fun c => c.sha)
          if checkCommitsOverlap db req.repo req.branch commitsList then
            .error (.overlapConflict
              "A changelog for this commit range already exists. Some commits have already been included in another changelog.")
          else
            .ok { markdown := draft commits, repo := req.repo,
                  branch := req.branch, mode := req.mode,
                  baseSha := r.1, headSha := r.2,
                  commits_list := commitsList }

/-- `pat` is a character-for-character prefix of the list. -/
def runAtStart : List Char → List Char → Bool
  | _, [] => true
  | [], _ :: _ => false
  | a :: as, b :: bs => a == b && runAtStart as bs

/-- Helper of `includesStr`: does `pat` occur contiguously? -/
def includesAux (pat : List Char) : List Char → Bool
  | [] => pat.isEmpty
  | a :: as => runAtStart (a :: as) pat || includesAux pat as

/-- `String.prototype.includes` — the (case-sensitive) substring test
the catch block applies to thrown error messages. -/
def includesStr (s pat : String) : Bool := includesAux pat.data s.data

/-- The catch chain of the generate handler (route.ts 620-655): a
thrown error's message is sniffed in order — environment, repository,
tag, GitHub-API and OpenAI patterns — and a message matching none of
them (in particular each mode's required-fields message) falls through
to the generic 500 `Internal server error`. -/
def catchChain (msg : String) : Nat × String :=
  if includesStr msg "Missing required environment variables" then
    (500, "Server configuration error")
  else if includesStr msg "Repository not found" then
    (404, "Repository not found or not accessible")
  else if includesStr msg "Tag" && includesStr msg "not found" then
    (404, msg)
  else if includesStr msg "GitHub API error" then
    (502, "Failed to fetch repository data")
  else if includesStr msg "OpenAI" then
    (503, "AI service unavailable")
  else
    (500, "Internal server error")

/-- The HTTP (status, error body) the generate handler surfaces for an
outcome of the pipeline. A success is the 200 response. The overlap and
empty-range outcomes are not thrown — the handler returns them directly
as the 400 conflict and the mode-specific 404 (route.ts 557-585); here
they are recognised by their messages, which no thrown error of the
pipeline shares. A zod schema failure is returned as the 400
`Invalid request data` (route.ts 613-618). Every other failure is a
thrown `Error` classified by `catchChain` on its message alone. -/
def generateHttpResponse : Except ApiError GenerateResponse → Nat × String
  | .ok _ => (200, "")
  | .error (.overlapConflict msg) => (400, msg)
  | .error (.validation msg) =>
    if msg == "Invalid request data" then (400, msg) else catchChain msg
  | .error (.notFound msg) =>
    if includesStr msg "No commits found between" then (404, msg)
    else catchChain msg
  | .error (.upstream msg) => catchChain msg
  | .error (.storage msg) => catchChain msg

/-- The required-fields message each mode of `convertToShaRange`
throws. -/
def requiredMsg : Mode → String
  | .date => "Start and end dates are required for date mode"
  | .tag => "Base and head tags are required for tag mode"
  | .sha => "Base and head SHAs are required for SHA mode"

/-- A parsed body of the releases `POST` endpoint
(`createReleaseSchema`): `branch` already carries its zod default
`"main"`; the original parameters are flattened. -/
structure PublishRequest where
  repo : String
  branch : String := "main"
  mode : Mode
  baseSha : String
  headSha : String
  markdown : String
  commits_list : List String
  origStart : Option String := none
  origEnd : Option String := none
  origBase : Option String := none
  origHead : Option String := none
deriving Repr, DecidableEq

/-- The `min(1)` constraints of `createReleaseSchema`: `repo`,
`baseSha`, `headSha` and `markdown` non-empty and `commits_list`
non-empty. -/
def publishValid (req : PublishRequest) : Bool :=
  !(req.repo == "") && !(req.baseSha == "") && !(req.headSha == "") &&
    !(req.markdown == "") && !req.commits_list.isEmpty

/-- The row the releases `POST` handler inserts (its `insertData`):
`commits_list` and the SHA range are always stored; the original
start/end dates are stored when truthy; the original base/head are
stored as tags only in tag mode. `id` and `published_at` stand for the
server-assigned values. -/
def mkInsertRow (newId : String) (now : Nat) (req : PublishRequest) : ReleaseSlice :=
  { id := newId, published_at := now, repo := req.repo, branch := req.branch,
    mode := req.mode, markdown := req.markdown,
    commits_list := some req.commits_list,
    base_sha := some req.baseSha, head_sha := some req.headSha,
    start_date := if falsy req.origStart then none else req.origStart,
    end_date := if falsy req.origEnd then none else req.origEnd,
    base_tag := if !falsy req.origBase && req.mode == Mode.tag then req.origBase else none,
    head_tag := if !falsy req.origHead && req.mode == Mode.tag then req.origHead else none }

/-- The releases `POST` handler (the persist path): validate the body
against `createReleaseSchema` and insert the row — no overlap check is
performed here. Returns the new table state and the inserted row. -/
def publishPOST (db : List ReleaseSlice) (newId : String) (now : Nat)
    (req : PublishRequest) : Except ApiError (List ReleaseSlice × ReleaseSlice) :=
  if publishValid req then
    .ok (db ++ [mkInsertRow newId now req], mkInsertRow newId now req)
  else
    .error (.validation "Invalid request data")

/-- The public shape `transformReleaseSlice` produces for the frontend:
note it has no commit-SHA collection. -/
structure PublicRelease where
  id : String
  repo : String
  tag : Option String
  range : String
  publishedAt : Nat
  markdown : String
  mode : Mode
  branch : String
deriving Repr, DecidableEq

/-- The ISO date display `new Date(x).toISOString().split('T')[0]`,
modelled for ISO-8601 inputs as the first ten characters. -/
def isoDay (s : String) : String := s.take 10

/-- `transformReleaseSlice`: build the mode-specific display range and
drop `commits_list` (and the raw columns) from the public shape. -/
def transformReleaseSlice (slice : ReleaseSlice) : PublicRelease :=
  let tag : Option String :=
    if slice.mode == Mode.tag then some (slice.head_tag.getD "unknown") else none
  let range : String :=
    match slice.mode with
    | .date =>
      (slice.start_date.map isoDay).getD "unknown" ++ " to " ++
        (slice.end_date.map isoDay).getD "unknown"
    | .sha =>
      (slice.base_sha.map (fun s => s.take 7)).getD "unknown" ++ "..." ++
        (slice.head_sha.map (fun s => s.take 7)).getD "unknown"
    | .tag =>
      slice.base_tag.getD "unknown" ++ "..." ++ slice.head_tag.getD "unknown"
  { id := slice.id, repo := slice.repo, tag := tag, range := range,
    publishedAt := slice.published_at, markdown := slice.markdown,
    mode := slice.mode, branch := slice.branch }

/-- Insert a row into a list kept in descending `published_at` order. -/
def insertDesc (r : ReleaseSlice) : List ReleaseSlice → List ReleaseSlice
  | [] => [r]
  | x :: xs =>
    if x.published_at ≤ r.published_at then r :: x :: xs
    else x :: insertDesc r xs

/-- Sort rows by `published_at` descending
(the `.order('published_at', { ascending: false })` of the select). -/
def sortByPublishedDesc : List ReleaseSlice → List ReleaseSlice
  | [] => []
  | x :: xs => insertDesc x (sortByPublishedDesc xs)

/-- The row-level query of the releases `GET` handler: filter by `repo`,
optionally by `branch`, and order by `published_at` descending. -/
def queryReleases (db : List ReleaseSlice) (repo : String)
    (branch : Option String) : List ReleaseSlice :=
  sortByPublishedDesc (db.filter (fun r =>
    r.repo == repo &&
      (match branch with
       | none => true
       | some b => r.branch == b)))

/-- The releases `GET` handler: the queried rows in their public shape. -/
def releasesGET (db : List ReleaseSlice) (repo : String)
    (branch : Option String) : List PublicRelease :=
  (queryReleases db repo branch).map transformReleaseSlice

/-- The releases `PUT` handler (`updateMarkdown`, part_002 170-228):
reject a falsy `id` or `markdown` (`if (!id || !markdown)`), update the
`markdown` column of the rows whose `id` matches, and re-select the
single updated row. When no row matches, supabase's `.single()` call
returns a PGRST116 *error* (not a null `data`), so the handler's
`if (error)` branch fires and returns the 500
`Failed to update changelog`; its written `if (!data)` 404
`Changelog not found` branch is unreachable dead code. On success,
returns the new table state and the public shape of the updated row. -/
def releasesPUT (db : List ReleaseSlice) (id markdown : String) :
    Except ApiError (List ReleaseSlice × PublicRelease) :=
  if id == "" || markdown == "" then
    .error (.validation "ID and markdown are required")
  else
    match (db.map (fun r =>
        if r.id == id then { r with markdown := markdown } else r)).find?
        (fun r => r.id == id) with
    | none => .error (.storage "Failed to update changelog")
    | some r =>
      .ok (db.map (fun r =>
        if r.id == id then { r with markdown := markdown } else r),
        transformReleaseSlice r)

/-! ## Claim theorems -/

/-- C2: `hasOverlap(repo, branch, candidateShas)` returns true if and
only if some persisted record in the exact `(repo, branch)` scope has a
commit-SHA set (a `null` `commits_list` reading as the empty set) with
non-empty intersection with the candidate set. In particular a store
preloaded with a set A answers true for any intersecting query B, and
false for any query disjoint from every stored set — and false when the
scope has no records at all. -/
theorem checkCommitsOverlap_iff (db : List ReleaseSlice) (repo branch : String)
    (cand : List String) :
    checkCommitsOverlap db repo branch cand = true ↔
      ∃ r ∈ db, r.repo = repo ∧ r.branch = branch ∧
        ∃ sha ∈ r.commits_list.getD [], sha ∈ cand := by
  simp only [checkCommitsOverlap, List.any_eq_true, List.mem_filter,
    Bool.and_eq_true, beq_iff_eq, List.elem_iff, decide_eq_true_eq]
  tauto

/-- C10: a persisted record whose `commits_list` is `null` is treated
as the empty set by the overlap check — removing such a record from the
store never changes the answer, so it can never cause `hasOverlap` to
return true or block a new changelog. -/
theorem overlap_ignores_null_commits (db₁ db₂ : List ReleaseSlice)
    (r : ReleaseSlice) (h : r.commits_list = none)
    (repo branch : String) (cand : List String) :
    checkCommitsOverlap (db₁ ++ r :: db₂) repo branch cand =
      checkCommitsOverlap (db₁ ++ db₂) repo branch cand := by
  by_cases hr : (r.repo == repo && r.branch == branch) = true <;>
    simp [checkCommitsOverlap, List.filter_append, List.any_append,
      List.filter_cons, hr, h]

/-- C10 witness: a store whose only scoped record has a `null`
`commits_list` does not block a candidate. -/
theorem overlap_ignores_null_commits_witness :
    checkCommitsOverlap
        ([] ++ ({ id := "1", published_at := 1, repo := "octo/demo",
                  branch := "main", mode := Mode.sha, markdown := "m",
                  commits_list := none } : ReleaseSlice) :: [])
        "octo/demo" "main" ["a1", "a2"] =
      checkCommitsOverlap ([] ++ []) "octo/demo" "main" ["a1", "a2"] :=
  overlap_ignores_null_commits [] []
    { id := "1", published_at := 1, repo := "octo/demo", branch := "main",
      mode := Mode.sha, markdown := "m", commits_list := none }
    rfl "octo/demo" "main" ["a1", "a2"]

/-! ### Demonstration providers for witnesses and counterexamples -/

/-- A provider with one lightweight tag (`light`, pointing straight at
commit `c100`) and one annotated tag (`annot`, whose ref points at tag
object `t200`, which dereferences to commit `c200`). -/
def tagDemoProvider : Provider :=
  { refs := fun _ tag =>
      if tag == "light" then some { typ := "commit", sha := "c100" }
      else if tag == "annot" then some { typ := "tag", sha := "t200" }
      else none,
    tagObjects := fun _ sha => if sha == "t200" then some "c200" else none,
    branchCommits := fun _ _ => [],
    compare := fun _ _ _ => none }

/-- Three commits of a demo history. -/
def cA1 : Commit := { sha := "a1", date := "2024-01-01T10:00:00Z" }

/-- See `cA1`. -/
def cA2 : Commit := { sha := "a2", date := "2024-01-01T12:00:00Z" }

/-- See `cA1`. -/
def cA3 : Commit := { sha := "a3", date := "2024-01-02T09:00:00Z" }

/-- A provider whose branch history is `[cA3, cA2, cA1]` (newest first)
and whose compare endpoint answers `a1...a3` with `[cA3, cA2]`. -/
def histDemoProvider : Provider :=
  { refs := fun _ _ => none,
    tagObjects := fun _ _ => none,
    branchCommits := fun _ _ => [cA3, cA2, cA1],
    compare := fun _ base head =>
      if base == "a1" && head == "a3" then some [cA3, cA2] else none }

/-- C6: `resolveTagToSha` resolves a missing tag to `NotFound`, a
lightweight tag (ref type other than `"tag"`) directly to its referenced
SHA, and an annotated tag through the intermediate tag object to the
underlying commit SHA — never to the intermediate tag-object SHA when
the two differ. -/
theorem resolveTagToSha_spec (p : Provider) (repo tag : String) :
    (p.refs repo tag = none →
      resolveTagToSha p repo tag =
        .error (.notFound ("Tag '" ++ tag ++ "' not found")))
    ∧ (∀ ref, p.refs repo tag = some ref → ¬ ref.typ = "tag" →
        resolveTagToSha p repo tag = .ok ref.sha)
    ∧ (∀ ref commitSha, p.refs repo tag = some ref → ref.typ = "tag" →
        p.tagObjects repo ref.sha = some commitSha →
        resolveTagToSha p repo tag = .ok commitSha ∧
          (¬ commitSha = ref.sha →
            ¬ resolveTagToSha p repo tag = .ok ref.sha)) := by
  refine ⟨fun h => by simp [resolveTagToSha, h],
    fun ref h ht => by simp [resolveTagToSha, h, ht],
    fun ref commitSha h ht hd => ?_⟩
  have hres : resolveTagToSha p repo tag = .ok commitSha := by
    simp [resolveTagToSha, h, ht, hd]
  exact ⟨hres, fun hne hcontra => hne (by
    rw [hres] at hcontra
    exact (Except.ok.injEq _ _ ▸ hcontra : commitSha = ref.sha))⟩

/-- C6 witness: on `tagDemoProvider`, a missing tag is `NotFound`, the
lightweight tag resolves to `c100`, and the annotated tag resolves to
the underlying commit `c200`, not the tag object `t200`. -/
theorem resolveTagToSha_spec_witness :
    resolveTagToSha tagDemoProvider "octo/demo" "missing" =
      .error (.notFound "Tag 'missing' not found")
    ∧ resolveTagToSha tagDemoProvider "octo/demo" "light" = .ok "c100"
    ∧ resolveTagToSha tagDemoProvider "octo/demo" "annot" = .ok "c200"
    ∧ ¬ resolveTagToSha tagDemoProvider "octo/demo" "annot" = .ok "t200" :=
  ⟨(resolveTagToSha_spec tagDemoProvider "octo/demo" "missing").1 rfl,
   (resolveTagToSha_spec tagDemoProvider "octo/demo" "light").2.1
     { typ := "commit", sha := "c100" } rfl (by decide),
   ((resolveTagToSha_spec tagDemoProvider "octo/demo" "annot").2.2
     { typ := "tag", sha := "t200" } "c200" rfl rfl rfl).1,
   ((resolveTagToSha_spec tagDemoProvider "octo/demo" "annot").2.2
     { typ := "tag", sha := "t200" } "c200" rfl rfl rfl).2 (by decide)⟩

/-- C5 (code bug): a generate request missing a field its selected mode
requires — date mode without start or end, tag or sha mode without base
or head — is rejected before any I/O: the mode's required-fields error
is the outcome for every provider, draft oracle and store alike. But
the claim's surfacing is where the code slips: that thrown message
matches no pattern of the catch chain, so the caller receives the
generic 500 `Internal server error`, indistinguishable from an internal
failure — not the validation response the spec's taxonomy and the
repository's own API documentation (`400 - Invalid request data or
missing required fields`) promise; only schema-level zod failures get
the 400 `Invalid request data`. -/
theorem missing_required_field_pre_io (req : GenerateRequest)
    (h0 : ¬ req.repo = "")
    (hmiss :
      (req.mode = Mode.date ∧ (falsy req.start = true ∨ falsy req.end_ = true))
      ∨ (req.mode = Mode.tag ∧ (falsy req.base = true ∨ falsy req.head = true))
      ∨ (req.mode = Mode.sha ∧ (falsy req.base = true ∨ falsy req.head = true))) :
    ∀ (p : Provider) (draft : List Commit → String) (db : List ReleaseSlice),
      generatePOST p draft db req = .error (.validation (requiredMsg req.mode))
      ∧ generateHttpResponse (generatePOST p draft db req) =
          (500, "Internal server error")
      ∧ generateHttpResponse (.error (.validation "Invalid request data")) =
          (400, "Invalid request data") := by
  intro p draft db
  have hconv : convertToShaRange p req.repo req.branch req.mode req.params =
      .error (.validation (requiredMsg req.mode)) := by
    rcases hmiss with ⟨hm, h⟩ | ⟨hm, h⟩ | ⟨hm, h⟩ <;>
      rcases h with h | h <;>
        simp [convertToShaRange, hm, requiredMsg, GenerateRequest.params, h]
  have hgen : generatePOST p draft db req =
      .error (.validation (requiredMsg req.mode)) := by
    simp [generatePOST, hconv, h0]
  refine ⟨hgen, ?_, rfl⟩
  rw [hgen]
  rcases hmiss with ⟨hm, _⟩ | ⟨hm, _⟩ | ⟨hm, _⟩ <;> rw [hm] <;> rfl

/-- C5 witness: the failing input — a date-mode request without an end
date — is rejected pre-I/O with the date-mode required-fields error,
and the handler surfaces it as the generic 500. -/
theorem missing_required_field_pre_io_witness :
    generatePOST histDemoProvider (fun _ => "draft") []
        { repo := "octo/demo", mode := Mode.date,
          start := some "2024-01-01" } =
      .error (.validation "Start and end dates are required for date mode")
    ∧ generateHttpResponse (generatePOST histDemoProvider (fun _ => "draft") []
        { repo := "octo/demo", mode := Mode.date,
          start := some "2024-01-01" }) =
      (500, "Internal server error")
    ∧ generateHttpResponse (.error (.validation "Invalid request data")) =
        (400, "Invalid request data") :=
  missing_required_field_pre_io
    { repo := "octo/demo", mode := Mode.date, start := some "2024-01-01" }
    (by decide) (Or.inl ⟨rfl, Or.inr rfl⟩) histDemoProvider (fun _ => "draft") []

/-- C4 counterexample: the claim says a tag-mode (resp. sha-mode)
request that omits its head value proceeds with head `"HEAD"`; in the
code `convertToShaRange` instead rejects it with the mode's
required-fields validation error — here concretely, at a request with
only a base, against `tagDemoProvider`. -/
theorem head_default_cex :
    convertToShaRange tagDemoProvider "octo/demo" "main" Mode.tag
        { base := some "light" } =
      .error (.validation "Base and head tags are required for tag mode")
    ∧ convertToShaRange tagDemoProvider "octo/demo" "main" Mode.sha
        { base := some "abc123f" } =
      .error (.validation "Base and head SHAs are required for SHA mode") :=
  ⟨rfl, rfl⟩

/-- C4 as amended: in tag mode and sha mode both base and head are
required — a falsy head is rejected with the mode's validation error
regardless of the other fields; the `"HEAD"` sentinel is honoured only
when the head value is the literal string `"HEAD"`, which tag mode
passes through unresolved to the diff while the base tag is resolved
(sha mode passes both values through as-is). The defaulting of an
omitted head to `"HEAD"` happens in the UI client before the request is
made, not in the resolver. -/
theorem head_sentinel_passthrough (p : Provider) (repo branch : String)
    (params : RangeParams) (b : String)
    (hbase : falsy params.base = false)
    (hhead : params.head = some "HEAD")
    (hres : resolveTagToSha p repo (params.base.getD "") = .ok b) :
    convertToShaRange p repo branch Mode.tag params = .ok (b, "HEAD")
    ∧ (∀ q : RangeParams, falsy q.head = true →
        convertToShaRange p repo branch Mode.tag q =
          .error (.validation "Base and head tags are required for tag mode"))
    ∧ (∀ q : RangeParams, falsy q.head = true →
        convertToShaRange p repo branch Mode.sha q =
          .error (.validation "Base and head SHAs are required for SHA mode")) := by
  refine ⟨?_, fun q hq => by simp [convertToShaRange, hq],
    fun q hq => by simp [convertToShaRange, hq]⟩
  have hf : falsy (some "HEAD") = false := rfl
  simp [convertToShaRange, hbase, hf, hhead, hres]

/-- C4 witness: with base tag `light` and head literally `"HEAD"`, tag
mode resolves to `(c100, HEAD)` with the head passed through
unresolved. -/
theorem head_sentinel_passthrough_witness :
    convertToShaRange tagDemoProvider "octo/demo" "main" Mode.tag
        { base := some "light", head := some "HEAD" } = .ok ("c100", "HEAD") :=
  (head_sentinel_passthrough tagDemoProvider "octo/demo" "main"
    { base := some "light", head := some "HEAD" } "c100" rfl rfl rfl).1

/-- C3: range resolution is canonicalising — whenever two requests (in
any of the three modes) denote the same underlying range, i.e.
`convertToShaRange` sends them to the same `(baseSha, headSha)` pair,
the whole resolver pipeline agrees on them: `fetchCommits` returns the
identical commit list for both. -/
theorem rangeResolver_canonical (p : Provider) (repo branch : String)
    (m₁ m₂ : Mode) (q₁ q₂ : RangeParams) (r : String × String)
    (h₁ : convertToShaRange p repo branch m₁ q₁ = .ok r)
    (h₂ : convertToShaRange p repo branch m₂ q₂ = .ok r) :
    fetchCommits p repo branch m₁ q₁ = fetchCommits p repo branch m₂ q₂ := by
  simp [fetchCommits, h₁, h₂]

/-- C3 witness: on `histDemoProvider`, the date window
`2024-01-01 .. 2024-01-03` and the SHA pair `(a1, a3)` denote the same
range — both resolve to the canonical pair `(a1, a3)` and
`fetchCommits` returns the same commit list `[cA3, cA2]` for both
modes. -/
theorem rangeResolver_canonical_witness :
    convertToShaRange histDemoProvider "octo/demo" "main" Mode.date
        { start := some "2024-01-01", end_ := some "2024-01-03" } = .ok ("a1", "a3")
    ∧ convertToShaRange histDemoProvider "octo/demo" "main" Mode.sha
        { base := some "a1", head := some "a3" } = .ok ("a1", "a3")
    ∧ fetchCommits histDemoProvider "octo/demo" "main" Mode.date
        { start := some "2024-01-01", end_ := some "2024-01-03" } =
      fetchCommits histDemoProvider "octo/demo" "main" Mode.sha
        { base := some "a1", head := some "a3" }
    ∧ fetchCommits histDemoProvider "octo/demo" "main" Mode.date
        { start := some "2024-01-01", end_ := some "2024-01-03" } =
      .ok [cA3, cA2] :=
  ⟨rfl, rfl,
   rangeResolver_canonical histDemoProvider "octo/demo" "main"
     Mode.date Mode.sha
     { start := some "2024-01-01", end_ := some "2024-01-03" }
     { base := some "a1", head := some "a3" } ("a1", "a3")
     rfl rfl,
   rfl⟩

/-! ### Order lemmas for the date-boundary lookup -/

/-- Branch history order: newest first — every earlier entry's date is
at or after every later entry's. -/
def NewestFirst (l : List Commit) : Prop :=
  l.Pairwise (fun a b => dateLe b.date a.date = true)

/-- `lexLe` is reflexive. -/
theorem lexLe_refl (l : List Char) : lexLe l l = true := by
  induction l with
  | nil => rfl
  | cons a as ih => simp [lexLe, charLt, ih]

/-- `dateLe` is reflexive. -/
theorem dateLe_refl (s : String) : dateLe s s = true := lexLe_refl s.data

/-- Pulling `lastOf` under a cons. -/
theorem lastOf_cons (first y : Commit) (ys : List Commit) :
    lastOf first (y :: ys) = lastOf y ys :=
  List.getLastD_cons first y ys

/-- The last element of a non-empty list is a member. -/
theorem lastOf_mem (first : Commit) (rest : List Commit) :
    lastOf first rest ∈ first :: rest := by
  induction rest generalizing first with
  | nil => simp [lastOf]
  | cons y ys ih =>
    rw [lastOf_cons]
    exact List.mem_cons_of_mem first (ih y)

/-- In a newest-first list the last element is date-minimal. -/
theorem lastOf_min (first : Commit) (rest : List Commit)
    (h : NewestFirst (first :: rest)) :
    ∀ x ∈ first :: rest, dateLe (lastOf first rest).date x.date = true := by
  induction rest generalizing first with
  | nil =>
    intro x hx
    rw [List.mem_singleton] at hx
    subst hx
    exact dateLe_refl _
  | cons y ys ih =>
    intro x hx
    rw [lastOf_cons]
    rcases List.mem_cons.1 hx with rfl | hx'
    · exact (List.pairwise_cons.1 h).1 _ (lastOf_mem y ys)
    · exact ih y (List.pairwise_cons.1 h).2 x hx'

/-- In a newest-first list the first element is date-maximal. -/
theorem head_max (first : Commit) (rest : List Commit)
    (h : NewestFirst (first :: rest)) :
    ∀ x ∈ first :: rest, dateLe x.date first.date = true := by
  intro x hx
  rcases List.mem_cons.1 hx with rfl | hx'
  · exact dateLe_refl _
  · exact (List.pairwise_cons.1 h).1 x hx'

/-- C7: when the branch history is newest-first and fits in the single
fetched page, the date-boundary lookup answers the start edge with the
oldest commit at or after the date, the end edge with the newest commit
at or before the date, and fails with `NotFound` when the queried
window holds no commit. -/
theorem findCommitShaByDate_spec (p : Provider) (repo branch date : String)
    (hs : NewestFirst (p.branchCommits repo branch))
    (hlen : (p.branchCommits repo branch).length ≤ 100) :
    (∀ res, findCommitShaByDate p repo branch date true = .ok res →
      ∃ c ∈ p.branchCommits repo branch, c.sha = res ∧
        dateLe date c.date = true ∧
        ∀ c' ∈ p.branchCommits repo branch,
          dateLe date c'.date = true → dateLe c.date c'.date = true)
    ∧ (∀ res, findCommitShaByDate p repo branch date false = .ok res →
      ∃ c ∈ p.branchCommits repo branch, c.sha = res ∧
        dateLe c.date date = true ∧
        ∀ c' ∈ p.branchCommits repo branch,
          dateLe c'.date date = true → dateLe c'.date c.date = true)
    ∧ ((∀ c ∈ p.branchCommits repo branch, ¬ dateLe date c.date = true) →
        findCommitShaByDate p repo branch date true =
          .error (.notFound ("No commits found since " ++ date)))
    ∧ ((∀ c ∈ p.branchCommits repo branch, ¬ dateLe c.date date = true) →
        findCommitShaByDate p repo branch date false =
          .error (.notFound ("No commits found until " ++ date))) := by
  refine ⟨?_, ?_, ?_, ?_⟩
  · intro res hres
    rw [findCommitShaByDate] at hres
    simp only [if_true] at hres
    rw [List.take_of_length_le
      (le_trans (List.length_filter_le _ _) hlen)] at hres
    rcases hfe : (p.branchCommits repo branch).filter
        (fun c => dateLe date c.date) with _ | ⟨f, rs⟩
    · rw [hfe] at hres; exact absurd hres (by simp)
    · rw [hfe] at hres
      simp only [if_true, Except.ok.injEq] at hres
      have hsf : NewestFirst (f :: rs) := by
        rw [← hfe]; exact hs.filter _
      have hmemf : lastOf f rs ∈ (p.branchCommits repo branch).filter
          (fun c => dateLe date c.date) := by
        rw [hfe]; exact lastOf_mem f rs
      have hmem := List.mem_filter.1 hmemf
      refine ⟨lastOf f rs, hmem.1, hres, by simpa using hmem.2, ?_⟩
      intro c' hc' hdc'
      have : c' ∈ (p.branchCommits repo branch).filter
          (fun c => dateLe date c.date) :=
        List.mem_filter.2 ⟨hc', by simpa using hdc'⟩
      rw [hfe] at this
      exact lastOf_min f rs hsf c' this
  · intro res hres
    rw [findCommitShaByDate] at hres
    simp only [Bool.false_eq_true, if_false] at hres
    rw [List.take_of_length_le
      (le_trans (List.length_filter_le _ _) hlen)] at hres
    rcases hfe : (p.branchCommits repo branch).filter
        (fun c => dateLe c.date date) with _ | ⟨f, rs⟩
    · rw [hfe] at hres; exact absurd hres (by simp)
    · rw [hfe] at hres
      simp only [Bool.false_eq_true, if_false, Except.ok.injEq] at hres
      have hsf : NewestFirst (f :: rs) := by
        rw [← hfe]; exact hs.filter _
      have hmemf : f ∈ (p.branchCommits repo branch).filter
          (fun c => dateLe c.date date) := by
        rw [hfe]; exact List.mem_cons_self f rs
      have hmem := List.mem_filter.1 hmemf
      refine ⟨f, hmem.1, hres, by simpa using hmem.2, ?_⟩
      intro c' hc' hdc'
      have : c' ∈ (p.branchCommits repo branch).filter
          (fun c => dateLe c.date date) :=
        List.mem_filter.2 ⟨hc', by simpa using hdc'⟩
      rw [hfe] at this
      exact head_max f rs hsf c' this
  · intro hnone
    rw [findCommitShaByDate]
    simp only [if_true]
    rw [List.filter_eq_nil_iff.mpr (by simpa using hnone)]
    rfl
  · intro hnone
    rw [findCommitShaByDate]
    simp only [Bool.false_eq_true, if_false]
    rw [List.filter_eq_nil_iff.mpr (by simpa using hnone)]
    rfl

/-- C7 witness: on `histDemoProvider`, the start edge of
`2024-01-01T11:00:00Z` is the oldest commit at or after it (`a2`), and
the lookup indeed answers `a2`. -/
theorem findCommitShaByDate_spec_witness :
    findCommitShaByDate histDemoProvider "octo/demo" "main"
        "2024-01-01T11:00:00Z" true = .ok "a2"
    ∧ ∃ c ∈ histDemoProvider.branchCommits "octo/demo" "main",
        c.sha = "a2" ∧ dateLe "2024-01-01T11:00:00Z" c.date = true ∧
        ∀ c' ∈ histDemoProvider.branchCommits "octo/demo" "main",
          dateLe "2024-01-01T11:00:00Z" c'.date = true →
            dateLe c.date c'.date = true :=
  ⟨rfl,
   (findCommitShaByDate_spec histDemoProvider "octo/demo" "main"
      "2024-01-01T11:00:00Z" (by unfold NewestFirst; decide) (by decide)).1 "a2" rfl⟩

/-! ### Persistence claims -/

/-- A persisted record covering commits `a1, a2, a3`. -/
def demoSlice : ReleaseSlice :=
  { id := "r1", published_at := 1, repo := "octo/demo", branch := "main",
    mode := Mode.date, markdown := "# v1",
    commits_list := some ["a1", "a2", "a3"] }

/-- A publish request whose commit set `{a2, b9}` overlaps
`demoSlice`. -/
def overlappingPublish : PublishRequest :=
  { repo := "octo/demo", branch := "main", mode := Mode.sha,
    baseSha := "a2", headSha := "b9", markdown := "# v2",
    commits_list := ["a2", "b9"] }

/-- C1 counterexample: against a store holding `demoSlice`
(commits `a1,a2,a3`), the publish request with commits `{a2, b9}`
overlaps the persisted scope — yet the publish handler accepts it and
inserts a second record instead of rejecting it with an overlap
conflict: the persist path performs no overlap check. -/
theorem publish_overlap_gate_cex :
    checkCommitsOverlap [demoSlice] "octo/demo" "main" ["a2", "b9"] = true
    ∧ publishPOST [demoSlice] "r2" 2 overlappingPublish =
        .ok ([demoSlice, mkInsertRow "r2" 2 overlappingPublish],
          mkInsertRow "r2" 2 overlappingPublish)
    ∧ (mkInsertRow "r2" 2 overlappingPublish).commits_list =
        some ["a2", "b9"] :=
  ⟨rfl, rfl, rfl⟩

/-- C1 as amended: the overlap check is the authoritative gate of the
*generate* operation, before drafting — a generate request whose
resolved commit set intersects a persisted record's commit set in the
same `(repo, branch)` scope is rejected with the overlap-conflict error
and no draft is produced; the publish operation itself performs no
overlap re-check: any schema-valid publish request is inserted as
given, whatever the store holds. -/
theorem overlap_gate_at_generate (p : Provider) (draft : List Commit → String)
    (db : List ReleaseSlice) (req : GenerateRequest)
    (h0 : ¬ req.repo = "") (commits : List Commit)
    (hf : fetchCommits p req.repo req.branch req.mode req.params = .ok commits)
    (hne : ¬ commits = [])
    (hov : checkCommitsOverlap db req.repo req.branch
      (commits.map (fun c => c.sha)) = true) :
    generatePOST p draft db req =
      .error (.overlapConflict
        "A changelog for this commit range already exists. Some commits have already been included in another changelog.")
    ∧ ∀ (newId : String) (now : Nat) (preq : PublishRequest),
        publishValid preq = true →
        publishPOST db newId now preq =
          .ok (db ++ [mkInsertRow newId now preq], mkInsertRow newId now preq) := by
  constructor
  · have hconv : ∃ r, convertToShaRange p req.repo req.branch req.mode req.params = .ok r := by
      rcases hc : convertToShaRange p req.repo req.branch req.mode req.params with e | r
      · rw [fetchCommits, hc] at hf
        exact absurd hf (by simp)
      · exact ⟨r, rfl⟩
    rcases hconv with ⟨r, hr⟩
    rcases commits with _ | ⟨c, cs⟩
    · exact absurd rfl hne
    · simp only [List.map_cons] at hov
      simp [generatePOST, h0, hr, hf, hov]
  · intro newId now preq hv
    simp [publishPOST, hv]

/-- C1 witness (for the amended claim): on `histDemoProvider` with
`demoSlice` persisted, a sha-mode generate request for `a1...a3`
resolves to commits `a3, a2`, overlaps the persisted `a1,a2,a3` and is
rejected with the overlap-conflict error. -/
theorem overlap_gate_at_generate_witness :
    generatePOST histDemoProvider (fun _ => "draft") [demoSlice]
        { repo := "octo/demo", branch := "main", mode := Mode.sha,
          base := some "a1", head := some "a3" } =
      .error (.overlapConflict
        "A changelog for this commit range already exists. Some commits have already been included in another changelog.") :=
  (overlap_gate_at_generate histDemoProvider (fun _ => "draft") [demoSlice]
    { repo := "octo/demo", branch := "main", mode := Mode.sha,
      base := some "a1", head := some "a3" }
    (by decide) [cA3, cA2] rfl (by decide) rfl).1

/-- Membership in `insertDesc`. -/
theorem mem_insertDesc (r x : ReleaseSlice) (l : List ReleaseSlice) :
    x ∈ insertDesc r l ↔ x = r ∨ x ∈ l := by
  induction l with
  | nil => simp [insertDesc]
  | cons y ys ih =>
    by_cases h : y.published_at ≤ r.published_at <;>
      simp [insertDesc, h, ih]
    tauto

/-- Sorting by `published_at` preserves membership. -/
theorem mem_sortByPublishedDesc (x : ReleaseSlice) (l : List ReleaseSlice) :
    x ∈ sortByPublishedDesc l ↔ x ∈ l := by
  induction l with
  | nil => simp [sortByPublishedDesc]
  | cons y ys ih => simp [sortByPublishedDesc, mem_insertDesc, ih]

/-- C8: round-trip — whenever a publish request is accepted and its
record inserted, the row-level `listByRepo` query for that repo
afterwards returns a record (the inserted one) whose stored commit-SHA
collection is exactly the inserted `commits_list`, in particular equal
to it as a set. -/
theorem insert_listByRepo_roundtrip (db : List ReleaseSlice) (newId : String)
    (now : Nat) (req : PublishRequest) (out : List ReleaseSlice × ReleaseSlice)
    (h : publishPOST db newId now req = .ok out) :
    ∃ r ∈ queryReleases out.1 req.repo none,
      r.id = newId ∧ r.commits_list = some req.commits_list ∧
        ∀ sha, sha ∈ r.commits_list.getD [] ↔ sha ∈ req.commits_list := by
  rw [publishPOST] at h
  by_cases hv : publishValid req = true
  · rw [if_pos hv, Except.ok.injEq] at h
    subst h
    refine ⟨mkInsertRow newId now req, ?_, rfl, rfl, fun sha => Iff.rfl⟩
    rw [queryReleases, mem_sortByPublishedDesc]
    simp [List.mem_filter, mkInsertRow]
  · rw [if_neg hv] at h
    exact absurd h (by simp)

/-- C8 witness: publishing `overlappingPublish` into the store
`[demoSlice]` yields a store whose repo query contains the new record
`r2` with commit set exactly `{a2, b9}`. -/
theorem insert_listByRepo_roundtrip_witness :
    ∃ r ∈ queryReleases
        ([demoSlice, mkInsertRow "r2" 2 overlappingPublish])
        "octo/demo" none,
      r.id = "r2" ∧ r.commits_list = some ["a2", "b9"] ∧
        ∀ sha, sha ∈ r.commits_list.getD [] ↔ sha ∈ ["a2", "b9"] :=
  insert_listByRepo_roundtrip [demoSlice] "r2" 2 overlappingPublish
    ([demoSlice, mkInsertRow "r2" 2 overlappingPublish],
      mkInsertRow "r2" 2 overlappingPublish) rfl

/-- C9 (code bug): at the failing input — updating the absent id `zzz`
against a store holding only `r1` — the handler returns the storage
failure 500 `Failed to update changelog`, because supabase's
`.single()` errors (PGRST116) when the update matches zero rows; it
does *not* fail with the 404 `Changelog not found` the claim (and the
handler's own unreachable `if (!data)` branch) describes. The frame
part of the claim does hold on the code: updating `r1` rewrites only
that record's markdown — `commits_list` and every other field are
untouched — and leaves the overlap answer for the scope unchanged. -/
theorem updateMarkdown_absent_id_bug :
    releasesPUT [demoSlice] "zzz" "x" =
      .error (.storage "Failed to update changelog")
    ∧ ¬ releasesPUT [demoSlice] "zzz" "x" =
        .error (.notFound "Changelog not found")
    ∧ releasesPUT [demoSlice] "r1" "# v1 edited" =
        .ok ([{ demoSlice with markdown := "# v1 edited" }],
          transformReleaseSlice { demoSlice with markdown := "# v1 edited" })
    ∧ checkCommitsOverlap [{ demoSlice with markdown := "# v1 edited" }]
        "octo/demo" "main" ["a2"] =
      checkCommitsOverlap [demoSlice] "octo/demo" "main" ["a2"] := by
  refine ⟨rfl, ?_, rfl, rfl⟩
  intro h
  rw [show releasesPUT [demoSlice] "zzz" "x" =
    .error (.storage "Failed to update changelog") from rfl] at h
  simp at h

end Relix
